import Mathlib

/-!
Verification of the `planetary2d` N-body engine (`planetary2d/bodies_system.py`,
`planetary2d/data.py`) against its natural-language specification.

The shallow embedding below models the engine over exact real arithmetic:
the source stores 2D vectors as `numpy.complex128` values, which we model as
`ℂ`; scalars (`float`) are modelled as `ℝ`.  Python exceptions are modelled
with `Except` / explicit outcome types, and the in-place mutation of
`SystemOfBodies` objects is modelled by state-passing: each mutating method
becomes a function from the old record to the new record, with the
raise-points of the source mapped to the error branches (the source raises
before performing any field write, which the embedding reflects by returning
the unchanged state alongside the error).
-/

namespace Planetary

/-- Error taxonomy of the design: `GeometryError` models the RuntimeError
raised by force assembly when two bodies coincide, `ValidationError` the
RuntimeError raised on malformed `dict_data` or zero mass, and
`ConfigurationError` the ValueError raised on an unrecognized unit name. -/
inductive PlanetaryError where
  | GeometryError
  | ValidationError
  | ConfigurationError
deriving DecidableEq

/-- Gravitational constant `G: ScalarType = 6.674e-11` from the source. -/
def G : ℝ := 6.674e-11

/-- State of `SystemOfBodies` (bodies_system.py).  The body count `b_num`
is the type index `n`; per-body arrays are functions `Fin n → _`.
Positions, velocities and accelerations are complex numbers exactly as in
the source (`VectorType = np.complex128`). -/
structure SystemOfBodies (n : ℕ) where
  labels : Fin n → String
  pos : Fin n → ℂ
  vel : Fin n → ℂ
  mass : Fin n → ℝ
  acc : Fin n → ℂ
  Δt : ℝ
  t_units : ℝ
  s_units : ℝ
  m_units : ℝ
  limit : ℕ
  no_hist : Bool
  hist : List (Fin n → ℂ)

variable {n : ℕ}

/-- The lower-triangular matrix built by the loop
`R[i+1:, i] = self.pos[i+1:] - self.pos[i]` in `__assemble_matrix_R`:
entry `(i, j)` is `pos[i] - pos[j]` strictly below the diagonal and `0`
elsewhere. -/
noncomputable def lower_R (s : SystemOfBodies n) : Matrix (Fin n) (Fin n) ℂ :=
  fun i j => if j < i then s.pos i - s.pos j else 0

/-- `__assemble_matrix_R` without its coincidence check: the lower
triangular matrix minus its transpose (`R -= R.T`). -/
noncomputable def assemble_matrix_R (s : SystemOfBodies n) :
    Matrix (Fin n) (Fin n) ℂ :=
  fun i j => lower_R s i j - lower_R s j i

/-- The raise condition of `__assemble_matrix_R`:
`((R + np.eye(self.b_num)) == 0).any()`. -/
def hasCollision (s : SystemOfBodies n) : Prop :=
  ∃ i j : Fin n,
    assemble_matrix_R s i j + (if i = j then (1 : ℂ) else 0) = 0

/-- `__assemble_matrix_K`: `K = outer(mass, mass)`, multiplied by the
unit-adjusted gravitational constant
`__G = G * (m_units * t_units**2 / s_units**3)` and divided elementwise by
the cubed moduli of `R + eye`. -/
noncomputable def assemble_matrix_K (s : SystemOfBodies n)
    (R : Matrix (Fin n) (Fin n) ℂ) : Matrix (Fin n) (Fin n) ℝ :=
  fun i j =>
    let r : ℝ := Complex.abs (R i j + (if i = j then (1 : ℂ) else 0))
    s.mass i * s.mass j * (G * (s.m_units * s.t_units ^ 2 / s.s_units ^ 3))
      / (r * r * r)

/-- `__assemble_array_F`: `F` accumulates `FF[col, :]` for every `col`,
so entry `j` is the sum of column `j` of `FF`. -/
noncomputable def assemble_array_F (FF : Matrix (Fin n) (Fin n) ℂ) :
    Fin n → ℂ :=
  fun j => ∑ i : Fin n, FF i j

/-- The pairwise force matrix `FF = RR * KK` (Hadamard product) of
`update_accelerations`. -/
noncomputable def force_matrix (s : SystemOfBodies n) :
    Matrix (Fin n) (Fin n) ℂ :=
  fun i j => assemble_matrix_R s i j
    * ((assemble_matrix_K s (assemble_matrix_R s) i j : ℝ) : ℂ)

/-- The acceleration array written by a successful `update_accelerations`:
`self.acc = F / self.mass`. -/
noncomputable def accel_of (s : SystemOfBodies n) : Fin n → ℂ :=
  fun i => assemble_array_F (force_matrix s) i / ((s.mass i : ℝ) : ℂ)

open Classical in
/-- `update_accelerations`: assembles `RR` (raising `GeometryError` when two
bodies coincide — the source raises inside `__assemble_matrix_R`, before any
field of the system has been written), then `KK`, `FF`, `F`, and finally
overwrites the acceleration array. -/
noncomputable def update_accelerations (s : SystemOfBodies n) :
    Except PlanetaryError (SystemOfBodies n) :=
  if hasCollision s then .error .GeometryError
  else .ok { s with acc := accel_of s }

/-- `update_positions`:
`self.pos += self.vel * Δt + (0.5 * Δt ** 2) * self.acc`, then appends a
copy of the new position array to the history when `no_hist` is `False`. -/
noncomputable def update_positions (s : SystemOfBodies n) : SystemOfBodies n :=
  let pos' : Fin n → ℂ := fun i =>
    s.pos i + (s.vel i * ((s.Δt : ℝ) : ℂ)
      + (((0.5 * s.Δt ^ 2 : ℝ)) : ℂ) * s.acc i)
  { s with
    pos := pos'
    hist := if s.no_hist = false then s.hist ++ [pos'] else s.hist }

/-- `update_velocities`: `self.vel += self.acc * Δt`. -/
noncomputable def update_velocities (s : SystemOfBodies n) : SystemOfBodies n :=
  { s with vel := fun i => s.vel i + s.acc i * ((s.Δt : ℝ) : ℂ) }

/-- `SystemOfBodiesIterator`: the owned working copy together with the
iteration index. -/
structure SystemOfBodiesIterator (n : ℕ) where
  system_of_bodies : SystemOfBodies n
  index : ℕ

/-- `SystemOfBodiesIterator.__init__` (reached through
`SystemOfBodies.__iter__`): deep-copies the system into the iterator's owned
working copy and starts the index at `0`.  `cpy.deepcopy` is modelled as a
value copy. -/
def mkIterator (s : SystemOfBodies n) : SystemOfBodiesIterator n :=
  ⟨s, 0⟩

/-- Outcome of one `__next__` call: `StopIteration`, a propagated error, or
the returned (shared, owned) system.  -/
inductive NextOutcome (n : ℕ) where
  | stop
  | err (e : PlanetaryError)
  | value (s : SystemOfBodies n)

/-- `SystemOfBodiesIterator.__next__`: stops when `index >= limit`;
otherwise runs the triad `update_accelerations` → `update_positions` →
`update_velocities` on the owned copy, increments the index and returns a
reference to that same owned copy.  The pair holds the iterator state after
the call (unchanged when the call raised, since the source raises before
any write) together with the outcome. -/
noncomputable def iterNext (it : SystemOfBodiesIterator n) :
    SystemOfBodiesIterator n × NextOutcome n :=
  if it.system_of_bodies.limit ≤ it.index then (it, .stop)
  else
    match update_accelerations it.system_of_bodies with
    | .error e => (it, .err e)
    | .ok s1 =>
        let s3 := update_velocities (update_positions s1)
        (⟨s3, it.index + 1⟩, .value s3)

/-- Iterator state after `k` calls to `__next__` (calls that stop or raise
leave the state unchanged). -/
noncomputable def iterN : ℕ → SystemOfBodiesIterator n → SystemOfBodiesIterator n
  | 0, it => it
  | k + 1, it => (iterNext (iterN k it)).1

/-- A two-cell store holding the original system alongside the iterator:
one `__next__` call touches only the iterator's cell.  This makes the
frame property of iteration (the original system is never written)
expressible in the state-passing embedding. -/
noncomputable def stepWorld (w : SystemOfBodies n × SystemOfBodiesIterator n) :
    SystemOfBodies n × SystemOfBodiesIterator n :=
  (w.1, (iterNext w.2).1)

/-- `k`-fold iteration of `stepWorld`. -/
noncomputable def iterWorldN :
    ℕ → SystemOfBodies n × SystemOfBodiesIterator n →
    SystemOfBodies n × SystemOfBodiesIterator n
  | 0, w => w
  | k + 1, w => stepWorld (iterWorldN k w)

/-- `T_UNITS` from the source. -/
def T_UNITS : List (String × ℝ) :=
  [("millisecs", 0.001), ("secs", 1), ("mins", 60), ("hrs", 3600),
   ("days", 86400), ("wks", 604800), ("months", 2592000),
   ("yrs", 31536000)]

/-- `S_UNITS` from the source. -/
def S_UNITS : List (String × ℝ) :=
  [("mm", 0.001), ("cm", 0.01), ("m", 1), ("km", 1000)]

/-- `M_UNITS` from the source (note the source maps `t` to `1`). -/
def M_UNITS : List (String × ℝ) :=
  [("mg", 0.0001), ("g", 0.001), ("kg", 1), ("t", 1)]

/-- One body's entry in the `dict_data` record.  A Python dict may lack a
key, which is modelled by `Option`; `position` and `velocity` are lists of
numbers of arbitrary length so that the arity check of `try_structure` is
meaningful.  (Values of entirely wrong runtime type, e.g. a string where a
list is expected, are outside this model; `try_structure` rejects them in
the source by the same `False` path as a missing key.) -/
structure BodyRecord where
  position : Option (List ℝ)
  velocity : Option (List ℝ)
  mass : Option ℝ

/-- `try_structure` (data.py): every body must have a `position` list of
length 2, a `velocity` list of length 2, and a `mass` number. -/
def try_structure (dict_data : List (String × BodyRecord)) : Bool :=
  dict_data.all fun b =>
    (match b.2.position with
     | some p => decide (p.length = 2)
     | none => false)
    && (match b.2.velocity with
        | some v => decide (v.length = 2)
        | none => false)
    && b.2.mass.isSome

/-- `data[POSITION][0] + 1j * data[POSITION][1]` — the complex vector built
from a validated 2-element list (defaulting to `0` when absent, a case the
structure check has already excluded on the success path). -/
noncomputable def vecOf (o : Option (List ℝ)) : ℂ :=
  match o with
  | some (x :: y :: _) => (x : ℂ) + Complex.I * (y : ℂ)
  | _ => 0

/-- The mass scalar of a body record (defaulting to `0` when absent). -/
def massOf (o : Option ℝ) : ℝ := o.getD 0

open Classical in
/-- `SystemOfBodies.__init__`: checks `try_structure`, parses the bodies
(raising on a zero mass), resolves the three unit names, and — when history
is enabled — stores the initial snapshot of positions.  The RuntimeErrors on
bad structure / zero mass are `ValidationError`, the ValueError on a bad
unit name is `ConfigurationError`. -/
noncomputable def mkSystemOfBodies (dict_data : List (String × BodyRecord))
    (base_interval : ℝ) (time_units space_units mass_units : String)
    (limit : ℕ) (no_hist : Bool) :
    Except PlanetaryError (SystemOfBodies dict_data.length) :=
  if try_structure dict_data = false then .error .ValidationError
  else if ∃ i : Fin dict_data.length, massOf (dict_data.get i).2.mass = 0 then
    .error .ValidationError
  else
    match T_UNITS.lookup time_units, S_UNITS.lookup space_units,
        M_UNITS.lookup mass_units with
    | some tu, some su, some mu =>
        .ok
          { labels := fun i => (dict_data.get i).1
            pos := fun i => vecOf (dict_data.get i).2.position
            vel := fun i => vecOf (dict_data.get i).2.velocity
            mass := fun i => massOf (dict_data.get i).2.mass
            acc := fun _ => 0
            Δt := base_interval
            t_units := tu
            s_units := su
            m_units := mu
            limit := limit
            no_hist := no_hist
            hist :=
              if no_hist = false then
                [fun i => vecOf (dict_data.get i).2.position]
              else [] }
    | _, _, _ => .error .ConfigurationError

/-- The effective gravitational constant of the specification,
`G_eff = G · mass_scale · time_scale² / space_scale³`. -/
noncomputable def G_eff (s : SystemOfBodies n) : ℝ :=
  G * s.m_units * s.t_units ^ 2 / s.s_units ^ 3

/-- A concrete two-body state with the specification's symmetric test data:
mass `7e11` at `(0, 0)` and mass `5e11` at `(0, 10)`, both stationary,
with all unit multipliers `1`. -/
noncomputable def exS : SystemOfBodies 2 where
  labels := fun _ => "body"
  pos := fun i => if i = 0 then 0 else 10 * Complex.I
  vel := fun _ => 0
  mass := fun i => if i = 0 then 7e11 else 5e11
  acc := fun _ => 0
  Δt := 1
  t_units := 1
  s_units := 1
  m_units := 1
  limit := 5
  no_hist := false
  hist := []

/-- The kilometre-unit counterpart of `exS`: every position component
divided by `1000` and the space scale set to `S_UNITS['km'] = 1000`. -/
noncomputable def exSkm : SystemOfBodies 2 :=
  { exS with pos := fun i => exS.pos i / 1000, s_units := 1000 }

/-- A concrete one-body state (a single body never triggers the coincidence
check, so every step of its iterator succeeds). -/
noncomputable def oneBodyS : SystemOfBodies 1 where
  labels := fun _ => "solo"
  pos := fun _ => 0
  vel := fun _ => 0
  mass := fun _ => 1
  acc := fun _ => 0
  Δt := 1
  t_units := 1
  s_units := 1
  m_units := 1
  limit := 5
  no_hist := false
  hist := [fun _ => 0]

/-- A concrete two-body state in which both bodies occupy the origin. -/
noncomputable def collS : SystemOfBodies 2 :=
  { exS with pos := fun _ => 0 }

/-- A one-body record whose body has well-formed `position` and `velocity`
but lacks the `mass` key entirely. -/
def noMassRecord : List (String × BodyRecord) :=
  [("a", ⟨some [0, 0], some [0, 0], none⟩)]

/- ======================  Theorems  ====================== -/

/-- Entrywise value of the assembled displacement matrix: building the
strictly-lower triangle as `pos[i] - pos[j]` and subtracting the transpose
yields `pos[i] - pos[j]` at every entry. -/
theorem assemble_matrix_R_apply (s : SystemOfBodies n) (i j : Fin n) :
    assemble_matrix_R s i j = s.pos i - s.pos j := by
  unfold assemble_matrix_R lower_R
  rcases lt_trichotomy j i with h | h | h
  · rw [if_pos h, if_neg (asymm h)]
    ring
  · rw [h, if_neg (lt_irrefl i)]
    simp
  · rw [if_neg (asymm h), if_pos h]
    ring

/-- The raise condition of `__assemble_matrix_R` holds exactly when two
distinct bodies occupy the same position. -/
theorem hasCollision_iff (s : SystemOfBodies n) :
    hasCollision s ↔ ∃ i j : Fin n, i ≠ j ∧ s.pos i = s.pos j := by
  unfold hasCollision
  constructor
  · rintro ⟨i, j, h⟩
    rw [assemble_matrix_R_apply] at h
    by_cases hij : i = j
    · subst hij
      simp at h
    · rw [if_neg hij, add_zero, sub_eq_zero] at h
      exact ⟨i, j, hij, h⟩
  · rintro ⟨i, j, hij, h⟩
    refine ⟨i, j, ?_⟩
    rw [assemble_matrix_R_apply, if_neg hij, add_zero, sub_eq_zero]
    exact h

/-- On a state with pairwise-distinct positions, `update_accelerations`
succeeds and overwrites exactly the acceleration array. -/
theorem update_accelerations_eq_ok (s : SystemOfBodies n)
    (hd : ∀ i j : Fin n, i ≠ j → s.pos i ≠ s.pos j) :
    update_accelerations s = .ok { s with acc := accel_of s } := by
  unfold update_accelerations
  rw [if_neg]
  rw [hasCollision_iff]
  rintro ⟨i, j, hij, h⟩
  exact hd i j hij h

/-- Inversion of a successful `update_accelerations` call. -/
theorem update_accelerations_ok_inv {s s' : SystemOfBodies n}
    (h : update_accelerations s = .ok s') :
    ¬ hasCollision s ∧ s' = { s with acc := accel_of s } := by
  unfold update_accelerations at h
  by_cases hc : hasCollision s
  · rw [if_pos hc] at h
    exact absurd h (by simp)
  · rw [if_neg hc] at h
    simp at h
    exact ⟨hc, h.symm⟩

/-- `update_accelerations` returns `GeometryError` exactly on the raise
condition of `__assemble_matrix_R`. -/
theorem update_accelerations_error_iff (s : SystemOfBodies n) :
    update_accelerations s = .error .GeometryError ↔ hasCollision s := by
  unfold update_accelerations
  by_cases hc : hasCollision s
  · simp [hc]
  · simp [hc]

/-- The two bodies of `exS` are at distinct positions. -/
theorem exS_distinct : ∀ i j : Fin 2, i ≠ j → exS.pos i ≠ exS.pos j := by
  intro i j hij
  fin_cases i <;> fin_cases j <;>
    simp_all [exS, Complex.ext_iff]

/-- C3 counterexample: on the two-body state `exS` the assembled
displacement matrix has `R[0][1] = pos[0] − pos[1] = −10i`, not
`pos[1] − pos[0] = 10i` as the claim states. -/
theorem C3_counterexample :
    assemble_matrix_R exS 0 1 ≠ exS.pos 1 - exS.pos 0 := by
  rw [assemble_matrix_R_apply]
  simp [exS, Complex.ext_iff]
  norm_num

/-- C3 (amended): whenever `update_accelerations` runs, the displacement
matrix it assembles satisfies `R[i][j] = position[i] − position[j]` for all
indices `i` and `j`, with zero diagonal (hence antisymmetric). -/
theorem C3_displacement_matrix (s : SystemOfBodies n) (i j : Fin n) :
    assemble_matrix_R s i j = s.pos i - s.pos j
      ∧ assemble_matrix_R s i i = 0
      ∧ assemble_matrix_R s j i = - assemble_matrix_R s i j := by
  refine ⟨assemble_matrix_R_apply s i j, ?_, ?_⟩
  · rw [assemble_matrix_R_apply]
    exact sub_self _
  · rw [assemble_matrix_R_apply, assemble_matrix_R_apply]
    ring

/-- The masses of `exS` are nonzero. -/
theorem exS_mass_ne : ∀ i : Fin 2, exS.mass i ≠ 0 := by
  intro i
  fin_cases i <;> norm_num [exS]

/-- Closed form of the acceleration array computed by
`update_accelerations` on a state with nonzero masses and pairwise-distinct
positions: body `i` receives
`Σ_{j ≠ i} G_eff · mass[j] · (pos[j] − pos[i]) / |pos[j] − pos[i]|³`. -/
theorem accel_of_formula (s : SystemOfBodies n)
    (hm : ∀ i, s.mass i ≠ 0)
    (hd : ∀ i j : Fin n, i ≠ j → s.pos i ≠ s.pos j) (i : Fin n) :
    accel_of s i = ∑ j ∈ Finset.univ.erase i,
      ((G_eff s * s.mass j : ℝ) : ℂ) * (s.pos j - s.pos i)
        / ((Complex.abs (s.pos j - s.pos i) : ℝ) : ℂ) ^ 3 := by
  simp only [accel_of, assemble_array_F, force_matrix, assemble_matrix_K,
    assemble_matrix_R_apply]
  rw [← Finset.add_sum_erase Finset.univ _ (Finset.mem_univ i)]
  rw [sub_self, zero_mul, zero_add, Finset.sum_div]
  refine Finset.sum_congr rfl ?_
  intro j hj
  have hji : j ≠ i := Finset.ne_of_mem_erase hj
  rw [if_neg hji, add_zero]
  have hGe : G * (s.m_units * s.t_units ^ 2 / s.s_units ^ 3) = G_eff s := by
    unfold G_eff
    ring
  rw [hGe]
  have hr : ((Complex.abs (s.pos j - s.pos i) : ℝ) : ℂ) ≠ 0 := by
    rw [ne_eq, Complex.ofReal_eq_zero, map_eq_zero, sub_eq_zero]
    exact hd j i hji
  have hmi : ((s.mass i : ℝ) : ℂ) ≠ 0 := Complex.ofReal_ne_zero.mpr (hm i)
  push_cast
  field_simp
  ring

/-- C1: for every system of `n ≥ 1` bodies with nonzero masses (a
construction invariant) and pairwise distinct positions,
`update_accelerations` terminates normally and overwrites the acceleration
array so that `acc[i] = Σ_{j ≠ i} G_eff · mass[j] · (pos[j] − pos[i]) /
|pos[j] − pos[i]|³` with `G_eff = G · m_units · t_units² / s_units³`;
every other state field is left exactly as it was (the result reads only
positions, masses and the three unit multipliers). -/
theorem C1_update_accelerations_formula (s : SystemOfBodies n) (_hn : 1 ≤ n)
    (hm : ∀ i, s.mass i ≠ 0)
    (hd : ∀ i j : Fin n, i ≠ j → s.pos i ≠ s.pos j) :
    ∃ s', update_accelerations s = .ok s'
      ∧ (∀ i, s'.acc i = ∑ j ∈ Finset.univ.erase i,
          ((G_eff s * s.mass j : ℝ) : ℂ) * (s.pos j - s.pos i)
            / ((Complex.abs (s.pos j - s.pos i) : ℝ) : ℂ) ^ 3)
      ∧ s'.labels = s.labels ∧ s'.pos = s.pos ∧ s'.vel = s.vel
      ∧ s'.mass = s.mass ∧ s'.Δt = s.Δt ∧ s'.t_units = s.t_units
      ∧ s'.s_units = s.s_units ∧ s'.m_units = s.m_units
      ∧ s'.limit = s.limit ∧ s'.no_hist = s.no_hist ∧ s'.hist = s.hist := by
  refine ⟨{ s with acc := accel_of s }, update_accelerations_eq_ok s hd,
    ?_, rfl, rfl, rfl, rfl, rfl, rfl, rfl, rfl, rfl, rfl, rfl⟩
  intro i
  exact accel_of_formula s hm hd i

/-- Witness for C1: the two-body state `exS` (masses `7e11` and `5e11` at
distinct positions) satisfies the hypotheses, so `update_accelerations`
succeeds on it with the claimed closed-form acceleration. -/
theorem C1_update_accelerations_formula_witness :
    ∃ s', update_accelerations exS = .ok s'
      ∧ (∀ i, s'.acc i = ∑ j ∈ Finset.univ.erase i,
          ((G_eff exS * exS.mass j : ℝ) : ℂ) * (exS.pos j - exS.pos i)
            / ((Complex.abs (exS.pos j - exS.pos i) : ℝ) : ℂ) ^ 3)
      ∧ s'.labels = exS.labels ∧ s'.pos = exS.pos ∧ s'.vel = exS.vel
      ∧ s'.mass = exS.mass ∧ s'.Δt = exS.Δt ∧ s'.t_units = exS.t_units
      ∧ s'.s_units = exS.s_units ∧ s'.m_units = exS.m_units
      ∧ s'.limit = exS.limit ∧ s'.no_hist = exS.no_hist
      ∧ s'.hist = exS.hist :=
  C1_update_accelerations_formula exS (by norm_num) exS_mass_ne exS_distinct

/-- The pairwise force matrix `FF = RR * KK` is antisymmetric: `KK` is
symmetric (the moduli of `R + eye` are symmetric) and `RR` is
antisymmetric. -/
theorem force_matrix_antisymm (s : SystemOfBodies n) (i j : Fin n) :
    force_matrix s i j = - force_matrix s j i := by
  unfold force_matrix assemble_matrix_K
  simp only [assemble_matrix_R_apply]
  by_cases h : i = j
  · subst h
    simp
  · rw [if_neg h, if_neg (Ne.symm h), add_zero, add_zero,
      Complex.abs.map_sub (s.pos j) (s.pos i)]
    push_cast
    ring

/-- The grand total of the pairwise force matrix vanishes. -/
theorem sum_forces_zero (s : SystemOfBodies n) :
    ∑ i, assemble_array_F (force_matrix s) i = 0 := by
  unfold assemble_array_F
  have h : (∑ j : Fin n, ∑ i : Fin n, force_matrix s i j)
      = - ∑ j : Fin n, ∑ i : Fin n, force_matrix s i j := by
    calc (∑ j : Fin n, ∑ i : Fin n, force_matrix s i j)
        = ∑ j : Fin n, ∑ i : Fin n, -(force_matrix s j i) :=
          Finset.sum_congr rfl fun j _ => Finset.sum_congr rfl fun i _ =>
            force_matrix_antisymm s i j
      _ = - ∑ j : Fin n, ∑ i : Fin n, force_matrix s j i := by
          simp
      _ = - ∑ j : Fin n, ∑ i : Fin n, force_matrix s i j := by
          rw [Finset.sum_comm]
  exact CharZero.eq_neg_self_iff.mp h

/-- `mass[i] * acc[i]` equals the net force on body `i` (even at a zero
mass, where both sides vanish because every force term carries the factor
`mass[i]`). -/
theorem mass_mul_accel (s : SystemOfBodies n) (i : Fin n) :
    (s.mass i : ℂ) * accel_of s i = assemble_array_F (force_matrix s) i := by
  unfold accel_of
  by_cases h : s.mass i = 0
  · rw [h]
    simp only [Complex.ofReal_zero, div_zero, mul_zero]
    symm
    unfold assemble_array_F force_matrix assemble_matrix_K
    refine Finset.sum_eq_zero ?_
    intro j _
    rw [h]
    simp
  · have hm : (s.mass i : ℂ) ≠ 0 := Complex.ofReal_ne_zero.mpr h
    rw [mul_comm, div_mul_cancel₀ _ hm]

/-- On any successful `update_accelerations`, the mass-weighted sum of the
written accelerations vanishes. -/
theorem momentum_of_ok {s s' : SystemOfBodies n}
    (h : update_accelerations s = .ok s') :
    ∑ i, (s'.mass i : ℂ) * s'.acc i = 0 := by
  obtain ⟨-, rfl⟩ := update_accelerations_ok_inv h
  show ∑ i, (s.mass i : ℂ) * accel_of s i = 0
  rw [Finset.sum_congr rfl fun i _ => mass_mul_accel s i]
  exact sum_forces_zero s

/-- Inversion of a `__next__` call that produced a value: the step ran the
triad on the owned system and the returned value is the advanced owned
system. -/
theorem iterNext_value_inv {it it' : SystemOfBodiesIterator n}
    {v : SystemOfBodies n} (h : iterNext it = (it', NextOutcome.value v)) :
    ∃ s1, update_accelerations it.system_of_bodies = .ok s1
      ∧ it' = ⟨update_velocities (update_positions s1), it.index + 1⟩
      ∧ v = update_velocities (update_positions s1) := by
  unfold iterNext at h
  by_cases hl : it.system_of_bodies.limit ≤ it.index
  · rw [if_pos hl] at h
    simp at h
  · rw [if_neg hl] at h
    cases hu : update_accelerations it.system_of_bodies with
    | error e =>
        rw [hu] at h
        simp at h
    | ok s1 =>
        rw [hu] at h
        simp at h
        exact ⟨s1, rfl, h.1.symm, h.2.symm⟩

/-- C2: after any successful call to `update_accelerations` the
mass-weighted sum of the computed accelerations is exactly the zero vector
(in exact real arithmetic), and the same holds for the state produced by
every successful iterator step. -/
theorem C2_momentum_conservation (s s' : SystemOfBodies n)
    (h : update_accelerations s = .ok s') :
    ∑ i, (s'.mass i : ℂ) * s'.acc i = 0
    ∧ ∀ (it it' : SystemOfBodiesIterator n) (v : SystemOfBodies n),
        iterNext it = (it', NextOutcome.value v) →
        ∑ i, (v.mass i : ℂ) * v.acc i = 0 := by
  refine ⟨momentum_of_ok h, ?_⟩
  intro it it' v hv
  obtain ⟨s1, hok, -, rfl⟩ := iterNext_value_inv hv
  show ∑ i, (s1.mass i : ℂ) * s1.acc i = 0
  exact momentum_of_ok hok

/-- Witness for C2: on the concrete two-body state `exS` the call succeeds
and the mass-weighted acceleration sum vanishes. -/
theorem C2_momentum_conservation_witness :
    ∑ i, ((({ exS with acc := accel_of exS } : SystemOfBodies 2)).mass i : ℂ)
        * ({ exS with acc := accel_of exS } : SystemOfBodies 2).acc i = 0
    ∧ ∀ (it it' : SystemOfBodiesIterator 2) (v : SystemOfBodies 2),
        iterNext it = (it', NextOutcome.value v) →
        ∑ i, (v.mass i : ℂ) * v.acc i = 0 :=
  C2_momentum_conservation exS _ (update_accelerations_eq_ok exS exS_distinct)

/-- A `__next__` call below the limit whose force assembly raises leaves
the iterator exactly as it was and reports the error. -/
theorem iterNext_error {it : SystemOfBodiesIterator n} {e : PlanetaryError}
    (hl : ¬ it.system_of_bodies.limit ≤ it.index)
    (hu : update_accelerations it.system_of_bodies = .error e) :
    iterNext it = (it, NextOutcome.err e) := by
  unfold iterNext
  rw [if_neg hl, hu]

/-- C4: `update_accelerations` raises `GeometryError` if and only if two
distinct bodies occupy identical positions at the moment of the call, and a
call of the step that raises leaves the iterator state — in particular the
system's position, velocity and acceleration arrays and its history —
exactly as it was before the call. -/
theorem C4_geometry_error_iff (s : SystemOfBodies n) :
    (update_accelerations s = .error .GeometryError ↔
      ∃ i j : Fin n, i ≠ j ∧ s.pos i = s.pos j)
    ∧ ∀ (it : SystemOfBodiesIterator n) (e : PlanetaryError),
        (iterNext it).2 = NextOutcome.err e → (iterNext it).1 = it := by
  constructor
  · rw [update_accelerations_error_iff, hasCollision_iff]
  · intro it e h
    unfold iterNext at h ⊢
    by_cases hl : it.system_of_bodies.limit ≤ it.index
    · rw [if_pos hl]
    · rw [if_neg hl] at h ⊢
      cases hu : update_accelerations it.system_of_bodies with
      | error e' => rfl
      | ok s1 =>
          rw [hu] at h
          simp at h

/-- C5: `update_positions` advances every position by
`velocity·Δt + 0.5·acceleration·Δt²` and, when history is enabled, appends
the new position array as a fresh history entry; the following
`update_velocities` adds `acceleration·Δt` to every velocity using the same
unchanged acceleration; neither call modifies the acceleration array (nor
the masses), and `update_velocities` touches neither positions nor
history. -/
theorem C5_integrator_triad (s : SystemOfBodies n) :
    (∀ i, (update_positions s).pos i
        = s.pos i + s.vel i * ((s.Δt : ℝ) : ℂ)
          + ((0.5 * s.Δt ^ 2 : ℝ) : ℂ) * s.acc i)
    ∧ (s.no_hist = false →
        (update_positions s).hist = s.hist ++ [(update_positions s).pos])
    ∧ (update_positions s).acc = s.acc
    ∧ (update_positions s).vel = s.vel
    ∧ (update_positions s).mass = s.mass
    ∧ (∀ i, (update_velocities (update_positions s)).vel i
        = s.vel i + s.acc i * ((s.Δt : ℝ) : ℂ))
    ∧ (update_velocities (update_positions s)).acc = s.acc
    ∧ (update_velocities (update_positions s)).mass = s.mass
    ∧ (update_velocities (update_positions s)).pos = (update_positions s).pos
    ∧ (update_velocities (update_positions s)).hist
        = (update_positions s).hist := by
  refine ⟨fun i => by rw [add_assoc]; rfl, fun h => ?_, rfl, rfl, rfl,
    fun i => rfl, rfl, rfl, rfl, rfl⟩
  show (if s.no_hist = false then s.hist ++ [_] else s.hist) = _
  rw [if_pos h]
  rfl

/-- A `__next__` call at or past the limit stops without touching the
iterator. -/
theorem iterNext_stop {it : SystemOfBodiesIterator n}
    (hl : it.system_of_bodies.limit ≤ it.index) :
    iterNext it = (it, NextOutcome.stop) := by
  unfold iterNext
  rw [if_pos hl]

/-- A `__next__` call below the limit whose force assembly succeeds runs
the triad on the owned copy, increments the index, and returns that same
owned copy. -/
theorem iterNext_ok {it : SystemOfBodiesIterator n} {s1 : SystemOfBodies n}
    (hl : ¬ it.system_of_bodies.limit ≤ it.index)
    (hu : update_accelerations it.system_of_bodies = .ok s1) :
    iterNext it = (⟨update_velocities (update_positions s1), it.index + 1⟩,
      NextOutcome.value (update_velocities (update_positions s1))) := by
  unfold iterNext
  rw [if_neg hl, hu]

/-- A position update on a history-tracking state grows the history by
exactly one snapshot. -/
theorem update_positions_hist_length (s : SystemOfBodies n)
    (h : s.no_hist = false) :
    (update_positions s).hist.length = s.hist.length + 1 := by
  simp [update_positions, h]

/-- Invariant of iteration from a freshly constructed history-tracking
state: as long as no step raises, after `k ≤ limit` advances the index is
`k`, the working copy keeps the limit and the history flag, and the history
holds `k + 1` snapshots. -/
theorem iterN_invariant (s : SystemOfBodies n) (hnh : s.no_hist = false)
    (hh : s.hist.length = 1)
    (H : ∀ k, k < s.limit → ∀ e,
      (iterNext (iterN k ⟨s, 0⟩)).2 ≠ NextOutcome.err e) :
    ∀ k, k ≤ s.limit →
      (iterN k ⟨s, 0⟩).index = k
      ∧ (iterN k ⟨s, 0⟩).system_of_bodies.limit = s.limit
      ∧ (iterN k ⟨s, 0⟩).system_of_bodies.no_hist = false
      ∧ (iterN k ⟨s, 0⟩).system_of_bodies.hist.length = k + 1 := by
  intro k
  induction k with
  | zero => exact fun _ => ⟨rfl, rfl, hnh, hh⟩
  | succ k ih =>
      intro hk1
      have hk : k < s.limit := Nat.lt_of_succ_le hk1
      obtain ⟨hidx, hlim, hnh', hlen⟩ := ih (Nat.le_of_lt hk)
      have hl : ¬ (iterN k ⟨s, 0⟩).system_of_bodies.limit
          ≤ (iterN k ⟨s, 0⟩).index := by
        rw [hidx, hlim]
        exact Nat.not_le.mpr hk
      cases hu : update_accelerations (iterN k ⟨s, 0⟩).system_of_bodies with
      | error e =>
          refine absurd ?_ (H k hk e)
          rw [iterNext_error hl hu]
      | ok s1 =>
          obtain ⟨-, hs1⟩ := update_accelerations_ok_inv hu
          have h1 : s1.no_hist = false := by
            rw [hs1]
            exact hnh'
          have h2 : s1.hist.length = k + 1 := by
            rw [hs1]
            exact hlen
          have h3 : s1.limit = s.limit := by
            rw [hs1]
            exact hlim
          rw [show iterN (k + 1) ⟨s, 0⟩ = (iterNext (iterN k ⟨s, 0⟩)).1 from rfl,
            iterNext_ok hl hu]
          refine ⟨by rw [hidx], h3, h1, ?_⟩
          show (update_positions s1).hist.length = k + 1 + 1
          rw [update_positions_hist_length s1 h1, h2]

/-- C6: for a history-tracking state with step limit `L` whose steps never
raise, fully iterating yields exactly `L` value-producing advances (one for
each `k < L`) and then signals end-of-sequence; after `k ≤ L` elapsed steps
the owned working copy's history has length exactly `k + 1`, so after full
iteration it has length `L + 1` (and for `L = 0` the first call already
stops). -/
theorem C6_sequence_bounds (s : SystemOfBodies n) (hnh : s.no_hist = false)
    (hh : s.hist.length = 1)
    (H : ∀ k, k < s.limit → ∀ e,
      (iterNext (iterN k ⟨s, 0⟩)).2 ≠ NextOutcome.err e) :
    (∀ k, k < s.limit →
      ∃ v, (iterNext (iterN k ⟨s, 0⟩)).2 = NextOutcome.value v)
    ∧ (iterNext (iterN s.limit ⟨s, 0⟩)).2 = NextOutcome.stop
    ∧ ∀ k, k ≤ s.limit →
        (iterN k ⟨s, 0⟩).system_of_bodies.hist.length = k + 1 := by
  refine ⟨?_, ?_, fun k hk => (iterN_invariant s hnh hh H k hk).2.2.2⟩
  · intro k hk
    obtain ⟨hidx, hlim, -, -⟩ := iterN_invariant s hnh hh H k (Nat.le_of_lt hk)
    have hl : ¬ (iterN k ⟨s, 0⟩).system_of_bodies.limit
        ≤ (iterN k ⟨s, 0⟩).index := by
      rw [hidx, hlim]
      exact Nat.not_le.mpr hk
    cases hu : update_accelerations (iterN k ⟨s, 0⟩).system_of_bodies with
    | error e =>
        refine absurd ?_ (H k hk e)
        rw [iterNext_error hl hu]
    | ok s1 =>
        exact ⟨update_velocities (update_positions s1), by rw [iterNext_ok hl hu]⟩
  · obtain ⟨hidx, hlim, -, -⟩ := iterN_invariant s hnh hh H s.limit le_rfl
    have hl : (iterN s.limit ⟨s, 0⟩).system_of_bodies.limit
        ≤ (iterN s.limit ⟨s, 0⟩).index := by
      rw [hidx, hlim]
    rw [iterNext_stop hl]

/-- On a one-body system, positions are trivially pairwise distinct. -/
theorem oneBody_distinct (t : SystemOfBodies 1) :
    ∀ i j : Fin 1, i ≠ j → t.pos i ≠ t.pos j := by
  intro i j hij
  exact absurd (Subsingleton.elim i j) hij

/-- A `__next__` call on a one-body iterator never reports an error. -/
theorem oneBody_no_err (it : SystemOfBodiesIterator 1) (e : PlanetaryError) :
    (iterNext it).2 ≠ NextOutcome.err e := by
  by_cases hl : it.system_of_bodies.limit ≤ it.index
  · rw [iterNext_stop hl]
    simp
  · rw [iterNext_ok hl
      (update_accelerations_eq_ok it.system_of_bodies
        (oneBody_distinct it.system_of_bodies))]
    simp

/-- Witness for C6: the one-body state `oneBodyS` with step limit `5`:
after five advances the sequence stops and the history holds six
snapshots. -/
theorem C6_sequence_bounds_witness :
    (iterNext (iterN 5 ⟨oneBodyS, 0⟩)).2 = NextOutcome.stop
    ∧ (iterN 5 ⟨oneBodyS, 0⟩).system_of_bodies.hist.length = 6 := by
  have h := C6_sequence_bounds oneBodyS rfl rfl
    (fun k _ e => oneBody_no_err _ e)
  exact ⟨h.2.1, h.2.2 5 (le_refl 5)⟩

/-- Rescaling a metre-unit state to kilometres (positions divided by
`1000`, space scale `1000`, all else equal) divides every entry of the net
force array by `1000` (exact real arithmetic). -/
theorem forces_scale (s s' : SystemOfBodies n)
    (hsu : s.s_units = 1) (hsu' : s'.s_units = 1000)
    (hpos : ∀ i, s'.pos i = s.pos i / 1000)
    (hmass : s'.mass = s.mass) (htu : s'.t_units = s.t_units)
    (hmu : s'.m_units = s.m_units) (i : Fin n) :
    assemble_array_F (force_matrix s') i
      = assemble_array_F (force_matrix s) i / 1000 := by
  unfold assemble_array_F
  rw [Finset.sum_div]
  refine Finset.sum_congr rfl fun j _ => ?_
  unfold force_matrix assemble_matrix_K
  simp only [assemble_matrix_R_apply, hpos, hmass, htu, hmu, hsu, hsu']
  rw [div_sub_div_same]
  by_cases h : j = i
  · subst h
    simp
  · rw [if_neg h, add_zero, add_zero]
    by_cases hz : s.pos j - s.pos i = 0
    · simp [hz]
    · have hr : Complex.abs (s.pos j - s.pos i) ≠ 0 := by
        rwa [ne_eq, map_eq_zero]
      rw [map_div₀, Complex.abs_ofNat]
      have hK : s.mass j * s.mass i
            * (G * (s.m_units * s.t_units ^ 2 / 1000 ^ 3))
            / (Complex.abs (s.pos j - s.pos i) / 1000
              * (Complex.abs (s.pos j - s.pos i) / 1000)
              * (Complex.abs (s.pos j - s.pos i) / 1000))
          = s.mass j * s.mass i
            * (G * (s.m_units * s.t_units ^ 2 / 1 ^ 3))
            / (Complex.abs (s.pos j - s.pos i)
              * Complex.abs (s.pos j - s.pos i)
              * Complex.abs (s.pos j - s.pos i)) := by
        field_simp
        ring
      rw [hK]
      ring

/-- C7: a metre-unit state and its kilometre-unit counterpart (every
position component divided by `1000`, space units `km`, all else equal)
produce, after one successful force-assembly call each, accelerations that
agree after scale conversion: the km-system acceleration times the `1000`
space-scale factor equals the m-system acceleration (exact real
arithmetic). -/
theorem C7_unit_equivalence (s s' t t' : SystemOfBodies n)
    (hsu : s.s_units = 1) (hsu' : s'.s_units = 1000)
    (hpos : ∀ i, s'.pos i = s.pos i / 1000)
    (hmass : s'.mass = s.mass) (htu : s'.t_units = s.t_units)
    (hmu : s'.m_units = s.m_units)
    (h1 : update_accelerations s = .ok t)
    (h2 : update_accelerations s' = .ok t') :
    ∀ i, (1000 : ℂ) * t'.acc i = t.acc i := by
  obtain ⟨-, rfl⟩ := update_accelerations_ok_inv h1
  obtain ⟨-, rfl⟩ := update_accelerations_ok_inv h2
  intro i
  show (1000 : ℂ) * accel_of s' i = accel_of s i
  unfold accel_of
  rw [forces_scale s s' hsu hsu' hpos hmass htu hmu i, hmass, div_div,
    ← mul_div_assoc,
    mul_div_mul_left _ _ (by norm_num : (1000 : ℂ) ≠ 0)]

/-- The two bodies of the kilometre-scaled state `exSkm` are at distinct
positions. -/
theorem exSkm_distinct : ∀ i j : Fin 2, i ≠ j → exSkm.pos i ≠ exSkm.pos j := by
  intro i j hij
  fin_cases i <;> fin_cases j <;>
    simp_all [exSkm, exS, Complex.ext_iff] <;> norm_num

/-- Witness for C7: `exS` (metres) versus `exSkm` (kilometres): both calls
succeed and body `0`'s km-acceleration times `1000` equals its
m-acceleration. -/
theorem C7_unit_equivalence_witness :
    (1000 : ℂ) * accel_of exSkm 0 = accel_of exS 0 :=
  C7_unit_equivalence exS exSkm
    { exS with acc := accel_of exS } { exSkm with acc := accel_of exSkm }
    rfl rfl (fun _ => rfl) rfl rfl rfl
    (update_accelerations_eq_ok exS exS_distinct)
    (update_accelerations_eq_ok exSkm exSkm_distinct) 0

/-- C8: creating an iterator deep-copies the system (owned copy equal to
the original, index `0`); any number of advances leaves every field of the
original system untouched (the original cell of the two-cell store is
preserved); and each value-producing advance returns exactly the sequence's
owned working copy, not a fresh copy. -/
theorem C8_iterator_frame (s : SystemOfBodies n) (k : ℕ) :
    ((mkIterator s).system_of_bodies = s ∧ (mkIterator s).index = 0)
    ∧ (iterWorldN k (s, mkIterator s)).1 = s
    ∧ ∀ (it : SystemOfBodiesIterator n) (v : SystemOfBodies n),
        (iterNext it).2 = NextOutcome.value v →
        v = ((iterNext it).1).system_of_bodies := by
  refine ⟨⟨rfl, rfl⟩, ?_, ?_⟩
  · induction k with
    | zero => rfl
    | succ k ih => exact ih
  · intro it v h
    have h2 : iterNext it = ((iterNext it).1, NextOutcome.value v) := by
      rw [← h]
    obtain ⟨s1, -, h3, h4⟩ := iterNext_value_inv h2
    rw [h4, h3]

/-- C9: construction fails with `ValidationError` whenever some body lacks
the `velocity` key, or has mass exactly `0`, or has a `position` list whose
length is not `2`; and construction succeeds on a record whose every body
has well-formed length-2 `position` and `velocity` lists and a present
nonzero mass, provided the three unit names are recognized. -/
theorem C9_construction_validation (d : List (String × BodyRecord)) (bi : ℝ)
    (tu su mu : String) (lim : ℕ) (nh : Bool) :
    ((∃ b ∈ d, b.2.velocity = none ∨ b.2.mass = some 0
        ∨ ∃ p, b.2.position = some p ∧ p.length ≠ 2) →
      mkSystemOfBodies d bi tu su mu lim nh = .error .ValidationError)
    ∧ ((∀ b ∈ d, (∃ p, b.2.position = some p ∧ p.length = 2)
          ∧ (∃ v, b.2.velocity = some v ∧ v.length = 2)
          ∧ ∃ m, b.2.mass = some m ∧ m ≠ 0) →
        T_UNITS.lookup tu ≠ none → S_UNITS.lookup su ≠ none →
        M_UNITS.lookup mu ≠ none →
        ∃ s, mkSystemOfBodies d bi tu su mu lim nh = .ok s) := by
  constructor
  · rintro ⟨b, hb, hcase⟩
    by_cases hts : try_structure d = false
    · unfold mkSystemOfBodies
      rw [if_pos hts]
    · have hts' : try_structure d = true := by
        cases hq : try_structure d with
        | false => exact absurd hq hts
        | true => rfl
      have hbody := List.all_eq_true.mp hts' b hb
      rcases hcase with hv | hm0 | ⟨p, hp, hlen⟩
      · rw [hv] at hbody
        simp at hbody
      · unfold mkSystemOfBodies
        rw [if_neg hts, if_pos]
        obtain ⟨i, hi⟩ := List.mem_iff_get.mp hb
        refine ⟨i, ?_⟩
        rw [hi, hm0]
        rfl
      · rw [hp] at hbody
        simp [hlen] at hbody
  · intro hgood htu hsu hmu
    have hts : try_structure d = true := by
      rw [try_structure, List.all_eq_true]
      intro b hb
      obtain ⟨⟨p, hp, hpl⟩, ⟨v, hv, hvl⟩, ⟨m, hm, -⟩⟩ := hgood b hb
      rw [hp, hv, hm]
      simp [hpl, hvl]
    have hnz : ¬ ∃ i : Fin d.length, massOf (d.get i).2.mass = 0 := by
      rintro ⟨i, hi⟩
      obtain ⟨-, -, ⟨m, hm, hmne⟩⟩ := hgood _ (List.get_mem d i.1 i.2)
      rw [hm] at hi
      exact hmne hi
    obtain ⟨tuv, htu'⟩ := Option.ne_none_iff_exists'.mp htu
    obtain ⟨suv, hsu'⟩ := Option.ne_none_iff_exists'.mp hsu
    obtain ⟨muv, hmu'⟩ := Option.ne_none_iff_exists'.mp hmu
    cases hres : mkSystemOfBodies d bi tu su mu lim nh with
    | ok sys => exact ⟨sys, rfl⟩
    | error e =>
        exfalso
        unfold mkSystemOfBodies at hres
        rw [if_neg (by simp [hts]), if_neg hnz, htu', hsu', hmu'] at hres
        simp at hres

/-- C9 counterexample: the record `noMassRecord` is free of every defect
the claim lists (its one body has the `velocity` key, its mass is not `0`
— the key is absent altogether — and its `position` list has length 2) and
the unit names are recognized, yet construction still fails with
`ValidationError`, so freedom from the listed defects does not imply
success. -/
theorem C9_counterexample :
    (∀ b ∈ noMassRecord, ¬(b.2.velocity = none ∨ b.2.mass = some 0
        ∨ ∃ p, b.2.position = some p ∧ p.length ≠ 2))
    ∧ T_UNITS.lookup "secs" = some 1 ∧ S_UNITS.lookup "m" = some 1
    ∧ M_UNITS.lookup "kg" = some 1
    ∧ mkSystemOfBodies noMassRecord 1 "secs" "m" "kg" 100 false
        = .error .ValidationError := by
  refine ⟨?_, rfl, rfl, rfl, ?_⟩
  · intro b hb
    simp only [noMassRecord, List.mem_singleton] at hb
    subst hb
    rintro (h | h | ⟨p, hp, hlen⟩)
    · exact absurd h (by simp)
    · exact absurd h (by simp)
    · rw [show (("a", (⟨some [0, 0], some [0, 0], none⟩ : BodyRecord))).2.position
          = some [0, 0] from rfl] at hp
      cases hp
      simp at hlen
  · unfold mkSystemOfBodies
    rw [if_pos (show try_structure noMassRecord = false from rfl)]

/-- C10: `update_accelerations` is idempotent — a second immediate call on
the state a successful call produced succeeds and returns that very state
(it reads only positions and masses, which the first call left untouched,
and rewrites the acceleration array with the same values). -/
theorem C10_idempotent (s s' : SystemOfBodies n)
    (h : update_accelerations s = .ok s') :
    update_accelerations s' = .ok s' := by
  obtain ⟨hc, rfl⟩ := update_accelerations_ok_inv h
  have hc' : ¬ hasCollision { s with acc := accel_of s } := by
    rw [hasCollision_iff] at hc ⊢
    exact hc
  unfold update_accelerations
  rw [if_neg hc']
  rfl

/-- Witness for C10: on the two-body state `exS`, repeating the successful
call reproduces the once-updated state exactly. -/
theorem C10_idempotent_witness :
    update_accelerations { exS with acc := accel_of exS }
      = .ok { exS with acc := accel_of exS } :=
  C10_idempotent exS _ (update_accelerations_eq_ok exS exS_distinct)

end Planetary
